import Mathlib

/-!
Shallow embedding of the interactive detection annotation engine of this
repository: `src/frontend/src/utils/detectionManager.js`,
`src/frontend/src/utils/yoloFormatter.js`, the `useDetections` hook and
the drawing handlers of `DetectionVisualization.jsx`.

JavaScript numbers are modelled as exact rationals (`ℚ`); object fields
that a record may lack (`id`, `bbox.width`, `segmentation`, ...) are
`Option`s, so JS strict equality `a === b` on possibly-`undefined`
values is equality of `Option`s, and JS truthiness of a number is
"nonzero".
-/

namespace DetectionEngine

/-- Bounding-box record `{x1, y1, x2, y2, width, height}`. Raw records
from the detector service may lack `width`/`height` (ingestion does not
recompute them), hence the `Option` fields. -/
structure Bbox where
  x1 : ℚ
  y1 : ℚ
  x2 : ℚ
  y2 : ℚ
  width : Option ℚ := none
  height : Option ℚ := none
deriving DecidableEq

/-- Segmentation record `{polygon, mask_available}`. -/
structure Segmentation where
  polygon : List (ℚ × ℚ) := []
  mask_available : Bool := false
deriving DecidableEq

/-- One detection record. `id`, `bbox` and `segmentation` may be absent
on raw records coming from the detector service. -/
structure Detection where
  id : Option ℤ := none
  class_id : ℤ := 0
  class_name : String := "object"
  confidence : ℚ := 1/2
  bbox : Option Bbox := none
  segmentation : Option Segmentation := none
deriving DecidableEq

/-- A partial-update object, spread over a detection by
`updateDetection` (`{...d, ...updates}`): present fields override the
old ones, absent fields are kept. -/
structure DetectionUpdates where
  id : Option ℤ := none
  class_id : Option ℤ := none
  class_name : Option String := none
  confidence : Option ℚ := none
  bbox : Option Bbox := none
  segmentation : Option Segmentation := none
deriving DecidableEq

/-- JS object spread `{...d, ...updates}` restricted to the six
detection fields. -/
def applyUpdates (d : Detection) (u : DetectionUpdates) : Detection where
  id := match u.id with
    | some v => some v
    | none => d.id
  class_id := u.class_id.getD d.class_id
  class_name := u.class_name.getD d.class_name
  confidence := u.confidence.getD d.confidence
  bbox := match u.bbox with
    | some b => some b
    | none => d.bbox
  segmentation := match u.segmentation with
    | some s => some s
    | none => d.segmentation

/-- A pointer position in natural-image pixel space. -/
structure Point where
  x : ℚ
  y : ℚ
deriving DecidableEq

/-- Counter state of a `DetectionManager` instance (`this.nextId`,
constructed as `new DetectionManager(nextIdStart)`). -/
structure DetectionManager where
  nextId : ℤ
deriving DecidableEq

namespace DetectionManager

/-- JS `d.id || 0`: an absent id is falsy; a present id `0` is falsy
too, but the result is `0` either way, so this is `Option.getD`. -/
def idOr0 (i : Option ℤ) : ℤ := i.getD 0

/-- `initializeNextId(detections)`:
`maxId = Math.max(...detections.map(d => d.id || 0), 0)` and
`nextId = Math.max(maxId + 1, nextId)`; a no-op on an empty list. -/
def initializeNextId (m : DetectionManager) (detections : List Detection) :
    DetectionManager :=
  if detections.isEmpty then m
  else
    { nextId := max (((detections.map fun d => idOr0 d.id).foldl max 0) + 1) m.nextId }

/-- `processDetections(detections)`: copies each record, filling a
missing `segmentation` with `{polygon: [], mask_available: false}`.
No ids are assigned and `width`/`height` are not recomputed. -/
def processDetections (detections : List Detection) : List Detection :=
  detections.map fun d => { d with segmentation := some (d.segmentation.getD {}) }

/-- `createDetection(bbox, classId, className, confidence)`: allocates
`this.nextId++` and builds the stored record; stored `width`/`height`
are the absolute differences of the given corners (the corners
themselves are copied unordered). Returns the advanced manager together
with the new detection. -/
def createDetection (m : DetectionManager) (bbox : Bbox) (classId : ℤ)
    (className : String) (confidence : ℚ) : DetectionManager × Detection :=
  ({ nextId := m.nextId + 1 },
   { id := some m.nextId
     class_id := classId
     class_name := className
     confidence := confidence
     bbox := some
       { x1 := bbox.x1
         y1 := bbox.y1
         x2 := bbox.x2
         y2 := bbox.y2
         width := some |bbox.x2 - bbox.x1|
         height := some |bbox.y2 - bbox.y1| }
     segmentation := some {} })

/-- `updateDetection(detections, detectionId, updates)`: spread-merges
`updates` into every record whose `id` strictly equals `detectionId`
(strict equality on possibly-undefined ids is `Option` equality). -/
def updateDetection (detections : List Detection) (detectionId : Option ℤ)
    (updates : DetectionUpdates) : List Detection :=
  detections.map fun d => if d.id = detectionId then applyUpdates d updates else d

/-- `deleteDetection(detections, detectionId)`: keeps exactly the
records whose `id` differs from `detectionId`. -/
def deleteDetection (detections : List Detection) (detectionId : Option ℤ) :
    List Detection :=
  detections.filter fun d => decide (d.id ≠ detectionId)

/-- `calculateBboxFromDrawing(drawStart, drawEnd, imageRef)` for the
case where both points and the image are present: orders the corners,
rejects boxes under 10 natural pixels in either direction, and
otherwise returns the provisional box. -/
def calculateBboxFromDrawing (drawStart drawEnd : Point) : Option Bbox :=
  let x1 := min drawStart.x drawEnd.x
  let y1 := min drawStart.y drawEnd.y
  let x2 := max drawStart.x drawEnd.x
  let y2 := max drawStart.y drawEnd.y
  if |x2 - x1| < 10 ∨ |y2 - y1| < 10 then none
  else some
    { x1 := x1
      y1 := y1
      x2 := x2
      y2 := y2
      width := some (x2 - x1)
      height := some (y2 - y1) }

end DetectionManager

namespace YOLOFormatter

/-- Exact rational value denoted by `v.toFixed(6)` for `v ≥ 0`: round
to six decimal places, where a tie picks the larger candidate, exactly
as `toFixed` does. -/
def round6 (q : ℚ) : ℚ := (⌊q * 1000000 + 1/2⌋ : ℚ) / 1000000

/-- `Math.max(0, Math.min(1, v))`. -/
def clamp01 (q : ℚ) : ℚ := max 0 (min 1 q)

/-- Decimal rendering of `v.toFixed(6)` for `0 ≤ v`: the integer part,
a dot, then the six fractional digits padded with leading zeros. -/
def fixed6 (q : ℚ) : String :=
  let n : ℕ := (⌊q * 1000000 + 1/2⌋).toNat
  Nat.repr (n / 1000000) ++ "." ++ (Nat.repr (1000000 + n % 1000000)).drop 1

/-- The five whitespace-separated tokens of one YOLO line, as exact
numbers. This is precisely the information the emitted string carries,
and what `parseInt`/`parseFloat` in `convertFromYOLOFormat` recover
from it (six-decimal fixed-point parses back exactly). -/
structure YoloLine where
  class_id : ℤ
  center_x : ℚ
  center_y : ℚ
  width : ℚ
  height : ℚ
deriving DecidableEq

/-- Rendering of one line, the template literal of
`convertToYOLOFormat`: the class id and the four floats with six
decimals each, separated by single spaces. -/
def YoloLine.render (l : YoloLine) : String :=
  toString l.class_id ++ " " ++ fixed6 l.center_x ++ " " ++ fixed6 l.center_y
    ++ " " ++ fixed6 l.width ++ " " ++ fixed6 l.height

/-- Numeric content of `convertToYOLOFormat(detection, w, h)`. The
guard is the JS truthiness test
`!detection.bbox || !imageWidth || !imageHeight`; on numbers, falsy
means zero, so the guard does NOT reject negative dimensions, and no
finiteness check exists in the source. The corners are min/max ordered,
scaled, clamped to `[0,1]`, and rounded to the six decimals the emitted
string carries. -/
def convertToYOLOLine (detection : Detection) (imageWidth imageHeight : ℚ) :
    Except String YoloLine :=
  match detection.bbox with
  | none => .error "Invalid detection or image dimensions"
  | some bbox =>
    if imageWidth = 0 ∨ imageHeight = 0 then
      .error "Invalid detection or image dimensions"
    else
      let x1 := min bbox.x1 bbox.x2
      let x2 := max bbox.x1 bbox.x2
      let y1 := min bbox.y1 bbox.y2
      let y2 := max bbox.y1 bbox.y2
      .ok
        { class_id := detection.class_id
          center_x := round6 (clamp01 (((x1 + x2) / 2) / imageWidth))
          center_y := round6 (clamp01 (((y1 + y2) / 2) / imageHeight))
          width := round6 (clamp01 ((x2 - x1) / imageWidth))
          height := round6 (clamp01 ((y2 - y1) / imageHeight)) }

/-- `convertToYOLOFormat(detection, imageWidth, imageHeight)`: the
emitted string is the rendered line. -/
def convertToYOLOFormat (detection : Detection) (imageWidth imageHeight : ℚ) :
    Except String String :=
  (convertToYOLOLine detection imageWidth imageHeight).map YoloLine.render

/-- Result shape of `convertFromYOLOFormat`: `{class_id, bbox}`. -/
structure YoloDetection where
  class_id : ℤ
  bbox : Bbox
deriving DecidableEq

/-- `convertFromYOLOFormat(yoloLine, imageWidth, imageHeight)` applied
to the five parsed tokens of a well-formed line (on such a line the
5-token count check of the string splitter cannot fail): reconstructs
the absolute bbox as `center ± size/2` scaled by the dimensions. -/
def convertFromYOLOFormat (line : YoloLine) (imageWidth imageHeight : ℚ) :
    YoloDetection :=
  let abs_center_x := line.center_x * imageWidth
  let abs_center_y := line.center_y * imageHeight
  let abs_width := line.width * imageWidth
  let abs_height := line.height * imageHeight
  { class_id := line.class_id
    bbox :=
      { x1 := abs_center_x - abs_width / 2
        y1 := abs_center_y - abs_height / 2
        x2 := abs_center_x + abs_width / 2
        y2 := abs_center_y + abs_height / 2
        width := some abs_width
        height := some abs_height } }

/-- Whether an `Except` result is the error case. -/
def isError (e : Except String String) : Bool :=
  match e with
  | .error _ => true
  | .ok _ => false

/-- `convertDetectionsToYOLO(detections, imageWidth, imageHeight)`:
empty-list and dimension guards, then one line per detection joined by
a single newline; a failing line aborts the whole conversion (the
source re-throws with the line index prepended to the message). -/
def convertDetectionsToYOLO (detections : List Detection)
    (imageWidth imageHeight : ℚ) : Except String String :=
  if detections.isEmpty then .error "No detections available"
  else if imageWidth = 0 ∨ imageHeight = 0 ∨ imageWidth ≤ 0 ∨ imageHeight ≤ 0 then
    .error "Invalid image dimensions"
  else
    (detections.mapM fun d => convertToYOLOFormat d imageWidth imageHeight).map
      (String.intercalate "\n")

end YOLOFormatter

/-- State of the `useDetections` hook: the canonical list, the selected
id, the edit working copy, and the id-allocating manager. -/
structure DetectionsState where
  detections : List Detection := []
  selectedDetectionId : Option ℤ := none
  editingDetection : Option Detection := none
  manager : DetectionManager
deriving DecidableEq

namespace DetectionsState

/-- A freshly mounted hook, `useDetections([], nextIdStart)`. -/
def init (nextIdStart : ℤ) : DetectionsState := { manager := { nextId := nextIdStart } }

/-- `updateDetections(newDetections)` (ingestion of a detector
response): a missing payload clears the list; otherwise the raw records
are normalized by `processDetections`, the id counter is floored above
the existing ids, and the list is REPLACED by the processed records.
Ingestion assigns no ids. -/
def updateDetections (st : DetectionsState) (newDetections : Option (List Detection)) :
    DetectionsState :=
  match newDetections with
  | none => { st with detections := [] }
  | some raw =>
    { st with
      detections := DetectionManager.processDetections raw
      manager := st.manager.initializeNextId (DetectionManager.processDetections raw) }

/-- `selectDetection(detectionId)`: toggles the selection. -/
def selectDetection (st : DetectionsState) (detectionId : ℤ) : DetectionsState :=
  { st with
    selectedDetectionId :=
      if st.selectedDetectionId = some detectionId then none else some detectionId }

/-- `startEdit(detection)`: snapshots the record into the working copy
and selects its id. -/
def startEdit (st : DetectionsState) (detection : Detection) : DetectionsState :=
  { st with editingDetection := some detection, selectedDetectionId := detection.id }

/-- `cancelEdit()`: drops the working copy. -/
def cancelEdit (st : DetectionsState) : DetectionsState :=
  { st with editingDetection := none }

/-- `saveEdit(updates)`: a no-op without an active edit; otherwise
commits through `updateDetection` and closes the edit session. -/
def saveEdit (st : DetectionsState) (updates : DetectionUpdates) : DetectionsState :=
  match st.editingDetection with
  | none => st
  | some e =>
    { st with
      detections := DetectionManager.updateDetection st.detections e.id updates
      editingDetection := none }

/-- `deleteDetection(detectionId)` of the hook: removes the record from
the list, and clears the edit working copy and/or the selection exactly
when they carry the deleted id. -/
def deleteDetection (st : DetectionsState) (detectionId : Option ℤ) : DetectionsState :=
  { st with
    detections := DetectionManager.deleteDetection st.detections detectionId
    editingDetection :=
      match st.editingDetection with
      | some e => if e.id = detectionId then none else some e
      | none => none
    selectedDetectionId :=
      if st.selectedDetectionId = detectionId then none else st.selectedDetectionId }

/-- `createDetection(bbox, classId, className, confidence, autoEdit)`
of the hook: allocates through the manager, appends the new record,
selects it, and opens the editor on it only when `autoEdit`. -/
def createDetection (st : DetectionsState) (bbox : Bbox) (classId : ℤ)
    (className : String) (confidence : ℚ) (autoEdit : Bool) :
    DetectionsState × Detection :=
  let p := st.manager.createDetection bbox classId className confidence
  ({ st with
     manager := p.1
     detections := st.detections ++ [p.2]
     selectedDetectionId := p.2.id
     editingDetection := if autoEdit then some p.2 else st.editingDetection }, p.2)

/-- `clearDetections()`. -/
def clearDetections (st : DetectionsState) : DetectionsState :=
  { st with detections := [], selectedDetectionId := none, editingDetection := none }

/-- Core of `handleMouseUp` in `DetectionVisualization.jsx`: finalize a
drag through `calculateBboxFromDrawing`; create a detection with
`class_id 0`, `class_name "object"`, `confidence 0.5` on success, do
nothing on a too-small box. -/
def finalizeDrawing (st : DetectionsState) (drawStart drawEnd : Point) :
    DetectionsState :=
  match DetectionManager.calculateBboxFromDrawing drawStart drawEnd with
  | none => st
  | some bbox => (st.createDetection bbox 0 "object" (1/2) false).1

end DetectionsState

/-- One Store-level operation, for statements about reachable states. -/
inductive StoreOp where
  | ingest (raw : Option (List Detection))
  | create (bbox : Bbox) (classId : ℤ) (className : String) (confidence : ℚ)
      (autoEdit : Bool)
  | update (detectionId : Option ℤ) (updates : DetectionUpdates)
  | delete (detectionId : Option ℤ)
deriving DecidableEq

/-- Apply one operation to the hook state, exactly as the hook does. -/
def DetectionsState.applyOp (st : DetectionsState) : StoreOp → DetectionsState
  | .ingest raw => st.updateDetections raw
  | .create bbox c n f a => (st.createDetection bbox c n f a).1
  | .update did u =>
      { st with detections := DetectionManager.updateDetection st.detections did u }
  | .delete did => st.deleteDetection did

/-- Run a sequence of operations left to right. -/
def DetectionsState.run (st : DetectionsState) (ops : List StoreOp) : DetectionsState :=
  ops.foldl DetectionsState.applyOp st

/-- The spec bbox invariant: ordered corners and derived extents. -/
def GoodBbox (b : Bbox) : Prop :=
  b.x1 ≤ b.x2 ∧ b.y1 ≤ b.y2 ∧ b.width = some (b.x2 - b.x1) ∧
    b.height = some (b.y2 - b.y1)

instance (b : Bbox) : Decidable (GoodBbox b) := by
  unfold GoodBbox
  infer_instance

/-- A detection whose bbox is present and satisfies the invariant. -/
def GoodDetection (d : Detection) : Prop :=
  ∃ b, d.bbox = some b ∧ GoodBbox b

instance (d : Detection) : Decidable (GoodDetection d) :=
  match hb : d.bbox with
  | none => isFalse (by simp [GoodDetection, hb])
  | some b => decidable_of_iff (GoodBbox b) (by simp [GoodDetection, hb])

/-- The ids present in a detection list. -/
def liveIds (dets : List Detection) : List ℤ := dets.filterMap fun d => d.id

/-- Well-formed operation arguments: ingested records satisfy the bbox
invariant, created boxes have ordered corners, and update payloads that
touch the bbox keep the invariant. -/
def GoodOp : StoreOp → Prop
  | .ingest none => True
  | .ingest (some raw) => ∀ d ∈ raw, GoodDetection d
  | .create bbox _ _ _ _ => bbox.x1 ≤ bbox.x2 ∧ bbox.y1 ≤ bbox.y2
  | .update _ u =>
      match u.bbox with
      | none => True
      | some b => GoodBbox b
  | .delete _ => True

instance : (op : StoreOp) → Decidable (GoodOp op)
  | .ingest none => isTrue trivial
  | .ingest (some raw) => inferInstanceAs (Decidable (∀ d ∈ raw, GoodDetection d))
  | .create bbox _ _ _ _ => inferInstanceAs (Decidable (_ ∧ _))
  | .update _ u =>
      match hb : u.bbox with
      | none => isTrue (by simp [GoodOp, hb])
      | some b => decidable_of_iff (GoodBbox b) (by simp [GoodOp, hb])
  | .delete _ => isTrue trivial

/-- Operations allowed in the id-uniqueness statement: `create`, and
`ingest` of a batch whose present ids are pairwise distinct. -/
def CreateIngestOk : StoreOp → Prop
  | .ingest none => True
  | .ingest (some raw) => (liveIds raw).Nodup
  | .create _ _ _ _ _ => True
  | .update _ _ => False
  | .delete _ => False

instance : (op : StoreOp) → Decidable (CreateIngestOk op)
  | .ingest none => isTrue trivial
  | .ingest (some raw) => inferInstanceAs (Decidable (liveIds raw).Nodup)
  | .create _ _ _ _ _ => isTrue trivial
  | .update _ _ => isFalse (by simp [CreateIngestOk])
  | .delete _ => isFalse (by simp [CreateIngestOk])

/-! Concrete records used by the scenario theorems below. -/

/-- Bbox `{100,100,300,200}` of the first export-scenario detection. -/
def exportBoxA : Bbox := { x1 := 100, y1 := 100, x2 := 300, y2 := 200 }

/-- Export-scenario detection `{class_id: 0, bbox: {100,100,300,200}}`. -/
def exportDetA : Detection := { class_id := 0, bbox := some exportBoxA }

/-- Export-scenario detection `{class_id: 2, bbox: {0,0,50,50}}`. -/
def exportDetB : Detection :=
  { class_id := 2, bbox := some { x1 := 0, y1 := 0, x2 := 50, y2 := 50 } }

/-- A detection touching the image corner, with a bbox whose normalized
values round at the sixth decimal. -/
def cornerDet : Detection :=
  { class_id := 0, bbox := some { x1 := 0, y1 := 0, x2 := 100, y2 := 100 } }

/-- The encoded line of `cornerDet` on a 600 by 600 image. -/
def cornerLine : YOLOFormatter.YoloLine :=
  { class_id := 0
    center_x := 83333/1000000
    center_y := 83333/1000000
    width := 166667/1000000
    height := 166667/1000000 }

/-- A raw detector record without an id. -/
def rawCat : Detection :=
  { class_id := 1
    class_name := "cat"
    confidence := 9/10
    bbox := some { x1 := 10, y1 := 10, x2 := 50, y2 := 50, width := some 40, height := some 40 } }

/-- A second raw detector record without an id. -/
def rawDog : Detection :=
  { class_id := 2
    class_name := "dog"
    confidence := 8/10
    bbox := some { x1 := 60, y1 := 60, x2 := 90, y2 := 90, width := some 30, height := some 30 } }

/-- A fresh Store (default offset 1000) after ingesting the two id-less
raw records. -/
def floorScenarioState : DetectionsState :=
  (DetectionsState.init 1000).updateDetections (some [rawCat, rawDog])

/-- Bbox argument for the create call following the ingestion. -/
def floorBox : Bbox := { x1 := 1, y1 := 1, x2 := 20, y2 := 20 }

/-- Two raw detector records carrying the same id `5`. -/
def dupRawA : Detection := { id := some 5, class_id := 1, class_name := "cat", confidence := 9/10 }

/-- Second record with the duplicate id `5`. -/
def dupRawB : Detection := { id := some 5, class_id := 2, class_name := "dog", confidence := 8/10 }

/-- Create operation whose corners arrive reversed (`x1 > x2`). -/
def reversedOp : StoreOp :=
  StoreOp.create { x1 := 200, y1 := 0, x2 := 50, y2 := 50 } 0 "object" (1/2) false

/-- The state reached by the reversed create on a fresh Store. -/
def reversedState : DetectionsState := (DetectionsState.init 1000).run [reversedOp]

/-- The record the reversed create stores: corners kept unordered,
extents taken as absolute differences. -/
def reversedDet : Detection :=
  { id := some 1000
    class_id := 0
    class_name := "object"
    confidence := 1/2
    bbox := some { x1 := 200, y1 := 0, x2 := 50, y2 := 50, width := some 150, height := some 50 }
    segmentation := some {} }

/-- Create operation with ordered corners, as the drawing path produces. -/
def orderedOp : StoreOp :=
  StoreOp.create { x1 := 50, y1 := 50, x2 := 200, y2 := 150 } 0 "object" (1/2) false

/-- The record stored by `orderedOp` on a fresh Store. -/
def orderedDet : Detection :=
  { id := some 1000
    class_id := 0
    class_name := "object"
    confidence := 1/2
    bbox := some { x1 := 50, y1 := 50, x2 := 200, y2 := 150, width := some 150, height := some 100 }
    segmentation := some {} }

/-- The detection created by dragging from (50,50) to (200,150) on a
fresh Store. -/
def drawDet : Detection :=
  { id := some 1000
    class_id := 0
    class_name := "object"
    confidence := 1/2
    bbox := some { x1 := 50, y1 := 50, x2 := 200, y2 := 150, width := some 150, height := some 100 }
    segmentation := some {} }

/-- A stored detection with id 1. -/
def detOne : Detection :=
  { id := some 1
    class_id := 0
    class_name := "car"
    confidence := 1/2
    bbox := some { x1 := 0, y1 := 0, x2 := 10, y2 := 10, width := some 10, height := some 10 }
    segmentation := some {} }

/-- A stored detection with id 2. -/
def detTwo : Detection :=
  { id := some 2
    class_id := 1
    class_name := "bus"
    confidence := 3/4
    bbox := some { x1 := 5, y1 := 5, x2 := 25, y2 := 20, width := some 20, height := some 15 }
    segmentation := some {} }

/-- A two-element detection list. -/
def twoDets : List Detection := [detOne, detTwo]

/-- A partial update touching only the class name. -/
def sampleUpdates : DetectionUpdates := { class_name := some "person" }

/-- A detection with id 7, being edited. -/
def editDet : Detection :=
  { id := some 7
    class_id := 0
    class_name := "car"
    confidence := 1/2
    bbox := some { x1 := 0, y1 := 0, x2 := 30, y2 := 30, width := some 30, height := some 30 }
    segmentation := some {} }

/-- A session in which `editDet` is listed, selected and being edited. -/
def editState : DetectionsState :=
  { detections := [editDet]
    selectedDetectionId := some 7
    editingDetection := some editDet
    manager := { nextId := 1000 } }

/-- Ids of all live records are below the manager counter and pairwise
distinct. -/
def IdInvariant (st : DetectionsState) : Prop :=
  (liveIds st.detections).Nodup ∧ ∀ i ∈ liveIds st.detections, i < st.manager.nextId

/-! Helper lemmas. -/

open YOLOFormatter

/-- Rounding to six decimals moves a value by at most half an ulp. -/
theorem round6_err (q : ℚ) : |round6 q - q| ≤ 1/2000000 := by
  have h1 : ((⌊q * 1000000 + 1/2⌋ : ℤ) : ℚ) ≤ q * 1000000 + 1/2 := Int.floor_le _
  have h2 : q * 1000000 + 1/2 - 1 < ((⌊q * 1000000 + 1/2⌋ : ℤ) : ℚ) :=
    Int.sub_one_lt_floor _
  rw [round6, abs_le]
  constructor
  · linarith
  · linarith

/-- Clamping is the identity on `[0, 1]`. -/
theorem clamp01_eq (q : ℚ) (h0 : 0 ≤ q) (h1 : q ≤ 1) : clamp01 q = q := by
  rw [clamp01, min_eq_right h1, max_eq_right h0]

/-- Combined error bound for a reconstructed coordinate
`center*D - size*D/2` when both factors carry at most half an ulp of
rounding error. -/
theorem recon_err (a b D : ℚ) (hD : 0 < D)
    (ha : |a| ≤ 1/2000000) (hb : |b| ≤ 1/2000000) :
    |a * D - b * D / 2| ≤ D * (1/100000) := by
  have tri : |a * D - b * D / 2| ≤ |a * D| + |b * D / 2| := by
    have h := abs_add (a * D) (-(b * D / 2))
    rw [abs_neg] at h
    simpa [sub_eq_add_neg] using h
  have e1 : |a * D| = |a| * D := by rw [abs_mul, abs_of_pos hD]
  have e2 : |b * D / 2| = |b| * D / 2 := by
    rw [abs_div, abs_mul, abs_of_pos hD]
    norm_num
  have b1 : |a| * D ≤ (1/2000000) * D := mul_le_mul_of_nonneg_right ha hD.le
  have b2 : |b| * D / 2 ≤ (1/2000000) * D / 2 := by
    have := mul_le_mul_of_nonneg_right hb hD.le
    linarith
  rw [e1, e2] at tri
  linarith

/-- A list maps to itself when the function fixes every element. -/
theorem map_id_of_mem {α : Type} (l : List α) (f : α → α)
    (h : ∀ x ∈ l, f x = x) : l.map f = l := by
  induction l with
  | nil => rfl
  | cons x xs ih =>
    rw [List.map_cons, h x (List.mem_cons_self x xs),
      ih fun y hy => h y (List.mem_cons_of_mem x hy)]

/-- The seed of a max fold bounds from below. -/
theorem le_foldl_max (l : List ℤ) (a : ℤ) : a ≤ l.foldl max a := by
  induction l generalizing a with
  | nil => exact le_refl a
  | cons x xs ih => exact le_trans (le_max_left a x) (ih (max a x))

/-- Every member of a list bounds its max fold from below. -/
theorem mem_le_foldl_max (l : List ℤ) (a : ℤ) (x : ℤ) (hx : x ∈ l) :
    x ≤ l.foldl max a := by
  induction l generalizing a with
  | nil => cases hx
  | cons y ys ih =>
    rcases List.mem_cons.mp hx with rfl | h
    · exact le_trans (le_max_right a x) (le_foldl_max ys (max a x))
    · exact ih (max a y) h

/-- Normalization does not touch ids. -/
theorem liveIds_process (raw : List Detection) :
    liveIds (DetectionManager.processDetections raw) = liveIds raw := by
  rw [liveIds, DetectionManager.processDetections, List.filterMap_map]
  rfl

/-- Present ids distribute over append. -/
theorem liveIds_append (l1 l2 : List Detection) :
    liveIds (l1 ++ l2) = liveIds l1 ++ liveIds l2 := by
  rw [liveIds, List.filterMap_append]
  rfl

/-! Claim theorems. -/

/-- C2 (counterexample): on a fresh Store with offset 1000, ingesting
two raw detections without ids does NOT assign ids 1000 and 1001 (the
records keep no id at all), and the subsequent create call does NOT
allocate 1002. -/
theorem ingestion_idFloor_cex :
    (floorScenarioState.detections.map fun d => d.id) ≠ [some 1000, some 1001] ∧
    (floorScenarioState.createDetection floorBox 0 "object" (1/2) false).2.id ≠
      some 1002 := by
  with_unfolding_all decide

set_option maxRecDepth 8000 in
/-- C2 (amended): ingesting two id-less raw detections on a fresh Store
(default offset 1000) leaves both records without an id — ingestion
assigns none — and keeps the next-id counter at the 1000 floor, so the
subsequent create call allocates id 1000 and advances the counter to
1001. -/
theorem ingestion_idFloor_amended :
    (floorScenarioState.detections.map fun d => d.id) = [none, none] ∧
    floorScenarioState.manager.nextId = 1000 ∧
    (floorScenarioState.createDetection floorBox 0 "object" (1/2) false).2.id =
      some 1000 ∧
    (floorScenarioState.createDetection floorBox 0 "object" (1/2) false).1.manager.nextId =
      1001 := by
  with_unfolding_all decide

/-- C3 (counterexample): encoding with the strictly negative image
width -800 does not fail; it silently produces an output line (whose
center and width have even been clamped to zero). -/
theorem encode_validation_cex :
    ((-800 : ℚ) < 0) ∧
    YOLOFormatter.convertToYOLOFormat exportDetA (-800) 600 =
      Except.ok "0 0.000000 0.250000 0.000000 0.166667" := by
  constructor
  · norm_num
  · with_unfolding_all rfl

/-- C3 (amended): over the numeric inputs of the model, encoding a
single detection fails with the validation error exactly when the bbox
is absent or one of the image dimensions is zero (JS-falsy); negative
dimensions are accepted and an output line is produced for them. -/
theorem encode_error_iff (d : Detection) (W H : ℚ) :
    YOLOFormatter.isError (YOLOFormatter.convertToYOLOFormat d W H) = true ↔
      (d.bbox = none ∨ W = 0 ∨ H = 0) := by
  rcases hb : d.bbox with _ | b
  · simp [convertToYOLOFormat, convertToYOLOLine, hb, isError, Except.map]
  · simp only [convertToYOLOFormat, convertToYOLOLine, hb]
    split_ifs with h
    · simp [isError, Except.map, h]
    · simp [isError, Except.map, h]

/-- C5: the two scenario detections encode on an 800 by 600 image to
exactly the two expected six-decimal lines, and the bulk export joins
them with a single newline. -/
theorem export_format_scenario :
    YOLOFormatter.convertToYOLOFormat exportDetA 800 600 =
      Except.ok "0 0.250000 0.250000 0.250000 0.166667" ∧
    YOLOFormatter.convertToYOLOFormat exportDetB 800 600 =
      Except.ok "2 0.031250 0.041667 0.062500 0.083333" ∧
    YOLOFormatter.convertDetectionsToYOLO [exportDetA, exportDetB] 800 600 =
      Except.ok "0 0.250000 0.250000 0.250000 0.166667\n2 0.031250 0.041667 0.062500 0.083333" := by
  refine ⟨?_, ?_, ?_⟩ <;> with_unfolding_all rfl

/-- C8: update and delete with an id matching no record return the
input list unchanged; neither operation can raise. -/
theorem missing_id_noop (dets : List Detection) (did : Option ℤ)
    (u : DetectionUpdates) (h : ∀ d ∈ dets, d.id ≠ did) :
    DetectionManager.updateDetection dets did u = dets ∧
    DetectionManager.deleteDetection dets did = dets := by
  constructor
  · exact map_id_of_mem dets _ fun d hd => if_neg (h d hd)
  · exact List.filter_eq_self.mpr fun d hd => decide_eq_true (h d hd)

/-- C8 (witness): concrete two-element list, id 9 matches nothing. -/
theorem missing_id_noop_witness :
    DetectionManager.updateDetection twoDets (some 9) sampleUpdates = twoDets ∧
    DetectionManager.deleteDetection twoDets (some 9) = twoDets :=
  missing_id_noop twoDets (some 9) sampleUpdates (by with_unfolding_all decide)

/-- C9: after deleting id `did` through the hook, neither the selection
nor the edit working copy references `did` any more; in particular a
selection of `did` and an edit session on a record with id `did` are
both cleared by that same delete. -/
theorem delete_clears_dependent_state (st : DetectionsState) (did : ℤ) :
    ((st.deleteDetection (some did)).selectedDetectionId ≠ some did) ∧
    (∀ e, (st.deleteDetection (some did)).editingDetection = some e →
      e.id ≠ some did) ∧
    (st.selectedDetectionId = some did →
      (st.deleteDetection (some did)).selectedDetectionId = none) ∧
    (∀ e, st.editingDetection = some e → e.id = some did →
      (st.deleteDetection (some did)).editingDetection = none) := by
  refine ⟨?_, ?_, ?_, ?_⟩
  · by_cases hsel : st.selectedDetectionId = some did <;>
      simp [DetectionsState.deleteDetection, hsel]
  · intro e he
    rcases hed : st.editingDetection with _ | e0
    · simp [DetectionsState.deleteDetection, hed] at he
    · by_cases h0 : e0.id = some did
      · simp [DetectionsState.deleteDetection, hed, h0] at he
      · simp [DetectionsState.deleteDetection, hed, h0] at he
        rw [← he]
        exact h0
  · intro hsel
    simp [DetectionsState.deleteDetection, hsel]
  · intro e he hid
    simp [DetectionsState.deleteDetection, he, hid]

/-- C9 (witness): deleting id 7 while the record with id 7 is both
selected and being edited clears both references. -/
theorem delete_clears_dependent_state_witness :
    ((editState.deleteDetection (some 7)).selectedDetectionId = none) ∧
    ((editState.deleteDetection (some 7)).editingDetection = none) :=
  ⟨(delete_clears_dependent_state editState 7).2.2.1 rfl,
   (delete_clears_dependent_state editState 7).2.2.2 editDet rfl rfl⟩

/-- C10: `updateDetection` keeps the length and leaves every position
whose record does not match the id unchanged; `deleteDetection` returns
an order-preserving sublist consisting of exactly the non-matching
records. (Both operations are pure functions of their input in this
embedding, matching `map`/`filter` returning fresh arrays.) -/
theorem update_delete_frame (dets : List Detection) (did : Option ℤ)
    (u : DetectionUpdates) :
    (DetectionManager.updateDetection dets did u).length = dets.length ∧
    (∀ i (h1 : i < dets.length)
      (h2 : i < (DetectionManager.updateDetection dets did u).length),
      (dets.get ⟨i, h1⟩).id ≠ did →
        (DetectionManager.updateDetection dets did u).get ⟨i, h2⟩ =
          dets.get ⟨i, h1⟩) ∧
    (DetectionManager.deleteDetection dets did).Sublist dets ∧
    (∀ d ∈ DetectionManager.deleteDetection dets did, d ∈ dets ∧ d.id ≠ did) ∧
    (∀ d ∈ dets, d.id ≠ did → d ∈ DetectionManager.deleteDetection dets did) := by
  refine ⟨?_, ?_, ?_, ?_, ?_⟩
  · simp [DetectionManager.updateDetection]
  · intro i h1 h2 hne
    simp only [DetectionManager.updateDetection, List.get_eq_getElem,
      List.getElem_map]
    rw [if_neg]
    simpa [List.get_eq_getElem] using hne
  · exact List.filter_sublist dets
  · intro d hd
    have h := List.mem_filter.mp hd
    exact ⟨h.1, of_decide_eq_true h.2⟩
  · intro d hd hne
    exact List.mem_filter.mpr ⟨hd, decide_eq_true hne⟩

/-- C10 (witness): updating id 1 in a two-element list leaves index 1
in place, and the record with id 2 survives deleting id 1. -/
theorem update_delete_frame_witness :
    (DetectionManager.updateDetection twoDets (some 1) sampleUpdates).get
        ⟨1, by with_unfolding_all decide⟩ =
      twoDets.get ⟨1, by with_unfolding_all decide⟩ ∧
    detTwo ∈ DetectionManager.deleteDetection twoDets (some 1) := by
  constructor
  · exact (update_delete_frame twoDets (some 1) sampleUpdates).2.1 1
      (by with_unfolding_all decide) (by with_unfolding_all decide)
      (by with_unfolding_all decide)
  · exact (update_delete_frame twoDets (some 1) sampleUpdates).2.2.2.2 detTwo
      (by with_unfolding_all decide) (by with_unfolding_all decide)

/-- The bbox produced by an accepted drag. -/
def drawnBbox (s e : Point) : Bbox :=
  { x1 := min s.x e.x
    y1 := min s.y e.y
    x2 := max s.x e.x
    y2 := max s.y e.y
    width := some (max s.x e.x - min s.x e.x)
    height := some (max s.y e.y - min s.y e.y) }

/-- Unfolded form of `calculateBboxFromDrawing` with the size test
expressed on the drag deltas. -/
theorem calculateBbox_eq (s e : Point) :
    DetectionManager.calculateBboxFromDrawing s e =
      if |e.x - s.x| < 10 ∨ |e.y - s.y| < 10 then none else some (drawnBbox s e) := by
  have hx : |max s.x e.x - min s.x e.x| = |e.x - s.x| := by
    rw [max_sub_min_eq_abs, abs_abs, abs_sub_comm]
  have hy : |max s.y e.y - min s.y e.y| = |e.y - s.y| := by
    rw [max_sub_min_eq_abs, abs_abs, abs_sub_comm]
  simp only [DetectionManager.calculateBboxFromDrawing, hx, hy]
  rfl

/-- Finalizing a rejected drag leaves the state untouched. -/
theorem finalizeDrawing_of_none (st : DetectionsState) (s e : Point)
    (h : DetectionManager.calculateBboxFromDrawing s e = none) :
    st.finalizeDrawing s e = st := by
  unfold DetectionsState.finalizeDrawing
  rw [h]

/-- Finalizing an accepted drag runs the create call of the hook. -/
theorem finalizeDrawing_of_some (st : DetectionsState) (s e : Point) (b : Bbox)
    (h : DetectionManager.calculateBboxFromDrawing s e = some b) :
    st.finalizeDrawing s e = (st.createDetection b 0 "object" (1/2) false).1 := by
  unfold DetectionsState.finalizeDrawing
  rw [h]

/-- C6: a drag creates a detection exactly when both deltas are at
least 10 natural pixels; the created record carries the min/max box
with recomputed extents, class 0, name "object" and confidence 0.5,
and a too-small drag leaves the state untouched. -/
theorem draw_finalize_spec (st : DetectionsState) (s e : Point) :
    ((DetectionManager.calculateBboxFromDrawing s e).isSome ↔
      (10 ≤ |e.x - s.x| ∧ 10 ≤ |e.y - s.y|)) ∧
    (∀ b, DetectionManager.calculateBboxFromDrawing s e = some b →
      b = drawnBbox s e) ∧
    (10 ≤ |e.x - s.x| → 10 ≤ |e.y - s.y| →
      (st.finalizeDrawing s e).detections = st.detections ++
        [{ id := some st.manager.nextId
           class_id := 0
           class_name := "object"
           confidence := 1/2
           bbox := some (drawnBbox s e)
           segmentation := some {} }]) ∧
    (¬ (10 ≤ |e.x - s.x| ∧ 10 ≤ |e.y - s.y|) → st.finalizeDrawing s e = st) := by
  have hcond : (¬ (|e.x - s.x| < 10 ∨ |e.y - s.y| < 10)) ↔
      (10 ≤ |e.x - s.x| ∧ 10 ≤ |e.y - s.y|) := by
    rw [not_or, not_lt, not_lt]
  have habsx : |max s.x e.x - min s.x e.x| = max s.x e.x - min s.x e.x :=
    abs_of_nonneg (sub_nonneg.mpr (min_le_max))
  have habsy : |max s.y e.y - min s.y e.y| = max s.y e.y - min s.y e.y :=
    abs_of_nonneg (sub_nonneg.mpr (min_le_max))
  by_cases h : |e.x - s.x| < 10 ∨ |e.y - s.y| < 10
  · refine ⟨?_, ?_, ?_, ?_⟩
    · rw [calculateBbox_eq, if_pos h]
      simp only [Option.isSome_none, Bool.false_eq_true, false_iff]
      exact fun hc => (hcond.mpr hc) h
    · intro b hb
      rw [calculateBbox_eq, if_pos h] at hb
      cases hb
    · intro h1 h2
      exact absurd h (hcond.mpr ⟨h1, h2⟩)
    · intro _
      exact finalizeDrawing_of_none st s e (by rw [calculateBbox_eq, if_pos h])
  · refine ⟨?_, ?_, ?_, ?_⟩
    · rw [calculateBbox_eq, if_neg h]
      simp only [Option.isSome_some, true_iff]
      exact hcond.mp h
    · intro b hb
      rw [calculateBbox_eq, if_neg h] at hb
      exact (Option.some.inj hb).symm
    · intro _ _
      rw [finalizeDrawing_of_some st s e (drawnBbox s e)
        (by rw [calculateBbox_eq, if_neg h])]
      simp only [DetectionsState.createDetection, DetectionManager.createDetection]
      congr 2
      rw [drawnBbox, habsx, habsy]
    · intro hc
      exact absurd (hcond.mp h) hc

set_option maxRecDepth 8000 in
/-- C6 (witness): dragging from (50,50) to (200,150) on a fresh Store
appends exactly the expected detection. -/
theorem draw_finalize_spec_witness :
    ((DetectionsState.init 1000).finalizeDrawing { x := 50, y := 50 }
        { x := 200, y := 150 }).detections = [drawDet] := by
  have h := (draw_finalize_spec (DetectionsState.init 1000) { x := 50, y := 50 }
      { x := 200, y := 150 }).2.2.1
    (by show (10:ℚ) ≤ |200 - 50|; norm_num) (by show (10:ℚ) ≤ |150 - 50|; norm_num)
  rw [h]
  with_unfolding_all decide

/-- Well-formed operations preserve the bbox invariant of every stored
detection. -/
theorem applyOp_good (st : DetectionsState) (op : StoreOp)
    (hop : GoodOp op) (h : ∀ d ∈ st.detections, GoodDetection d) :
    ∀ d ∈ (st.applyOp op).detections, GoodDetection d := by
  cases op with
  | ingest raw =>
    cases raw with
    | none =>
      intro d hd
      simp [DetectionsState.applyOp, DetectionsState.updateDetections] at hd
    | some l =>
      intro d hd
      simp only [DetectionsState.applyOp, DetectionsState.updateDetections,
        DetectionManager.processDetections] at hd
      obtain ⟨d0, hd0, rfl⟩ := List.mem_map.mp hd
      obtain ⟨b, hb, hgb⟩ := hop d0 hd0
      exact ⟨b, hb, hgb⟩
  | create bbox c n f a =>
    intro d hd
    simp only [DetectionsState.applyOp, DetectionsState.createDetection,
      DetectionManager.createDetection, List.mem_append, List.mem_singleton] at hd
    rcases hd with hd | rfl
    · exact h d hd
    · refine ⟨_, rfl, hop.1, hop.2, ?_, ?_⟩
      · rw [abs_of_nonneg (sub_nonneg.mpr hop.1)]
      · rw [abs_of_nonneg (sub_nonneg.mpr hop.2)]
  | update did u =>
    intro d hd
    simp only [DetectionsState.applyOp, DetectionManager.updateDetection] at hd
    obtain ⟨d0, hd0, rfl⟩ := List.mem_map.mp hd
    by_cases hid : d0.id = did
    · rw [if_pos hid]
      rcases hu : u.bbox with _ | b
      · obtain ⟨b0, hb0, hg0⟩ := h d0 hd0
        exact ⟨b0, by simp [applyUpdates, hu, hb0], hg0⟩
      · have hop' : GoodBbox b := by
          simp only [GoodOp] at hop
          rw [hu] at hop
          exact hop
        exact ⟨b, by simp [applyUpdates, hu], hop'⟩
    · rw [if_neg hid]
      exact h d0 hd0
  | delete did =>
    intro d hd
    simp only [DetectionsState.applyOp, DetectionsState.deleteDetection,
      DetectionManager.deleteDetection] at hd
    exact h d (List.mem_filter.mp hd).1

/-- Good operation sequences preserve the bbox invariant. -/
theorem run_good (ops : List StoreOp) (st : DetectionsState)
    (hops : ∀ op ∈ ops, GoodOp op) (h : ∀ d ∈ st.detections, GoodDetection d) :
    ∀ d ∈ (st.run ops).detections, GoodDetection d := by
  induction ops generalizing st with
  | nil => exact h
  | cons op rest ih =>
    exact ih (st.applyOp op) (fun o ho => hops o (List.mem_cons_of_mem op ho))
      (applyOp_good st op (hops op (List.mem_cons_self op rest)) h)

set_option maxRecDepth 8000 in
/-- C4 (counterexample): a create call whose corners arrive reversed
stores a detection that violates the invariant (`x1 > x2` and
`width ≠ x2 - x1`), so the invariant does not hold on all reachable
states. -/
theorem bbox_invariant_cex :
    reversedDet ∈ reversedState.detections ∧ ¬ GoodDetection reversedDet := by
  with_unfolding_all decide

/-- C4 (amended): for every sequence of ingest, create, update and
delete operations whose arguments respect the bbox invariant (ingested
records satisfy it, created boxes have ordered corners, update payloads
touching the bbox keep it), every detection of the reached Store state
satisfies `x1 ≤ x2`, `y1 ≤ y2`, `width = x2-x1`, `height = y2-y1`. -/
theorem bbox_invariant_preserved (start : ℤ) (ops : List StoreOp)
    (h : ∀ op ∈ ops, GoodOp op) :
    ∀ d ∈ ((DetectionsState.init start).run ops).detections, GoodDetection d :=
  run_good ops (DetectionsState.init start) h
    (by intro d hd; exact absurd hd (List.not_mem_nil d))

set_option maxRecDepth 8000 in
/-- C4 (witness): the drag-produced create with ordered corners yields
an invariant-satisfying record. -/
theorem bbox_invariant_preserved_witness : GoodDetection orderedDet :=
  bbox_invariant_preserved 1000 [orderedOp] (by with_unfolding_all decide)
    orderedDet (by with_unfolding_all decide)

/-- Create and well-formed ingest operations preserve distinctness of
live ids together with the counter bound. -/
theorem applyOp_id_inv (st : DetectionsState) (op : StoreOp)
    (hop : CreateIngestOk op) (h : IdInvariant st) :
    IdInvariant (st.applyOp op) := by
  cases op with
  | ingest raw =>
    cases raw with
    | none =>
      refine ⟨?_, ?_⟩ <;>
        simp [DetectionsState.applyOp, DetectionsState.updateDetections, liveIds]
    | some l =>
      have hids := liveIds_process l
      constructor
      · show (liveIds (DetectionManager.processDetections l)).Nodup
        rw [hids]
        exact hop
      · show ∀ i ∈ liveIds (DetectionManager.processDetections l),
          i < (st.manager.initializeNextId (DetectionManager.processDetections l)).nextId
        intro i hi
        unfold DetectionManager.initializeNextId
        by_cases hemp : (DetectionManager.processDetections l).isEmpty
        · rw [List.isEmpty_iff.mp hemp] at hi
          exact absurd hi (by simp [liveIds])
        · rw [if_neg hemp]
          obtain ⟨d, hdP, hdi⟩ := List.mem_filterMap.mp hi
          have hval : DetectionManager.idOr0 d.id = i := by
            rw [hdi]
            rfl
          have hmem : i ∈ (DetectionManager.processDetections l).map
              fun d => DetectionManager.idOr0 d.id := by
            rw [← hval]
            exact List.mem_map_of_mem _ hdP
          have hle := mem_le_foldl_max _ 0 i hmem
          have hlt : i < ((DetectionManager.processDetections l).map
              fun d => DetectionManager.idOr0 d.id).foldl max 0 + 1 := by
            omega
          exact lt_of_lt_of_le hlt (le_max_left _ _)
  | create bbox c n f a =>
    obtain ⟨hnd, hbd⟩ := h
    have hsplit : liveIds ((st.applyOp (StoreOp.create bbox c n f a)).detections)
        = liveIds st.detections ++ [st.manager.nextId] := by
      show liveIds (st.detections ++ [_]) = _
      rw [liveIds_append]
      rfl
    constructor
    · rw [hsplit]
      refine List.Nodup.append hnd (List.nodup_singleton _) ?_
      intro x hx1 hx2
      rw [List.mem_singleton] at hx2
      subst hx2
      exact absurd (hbd _ hx1) (lt_irrefl _)
    · intro i hi
      rw [hsplit] at hi
      show i < st.manager.nextId + 1
      rcases List.mem_append.mp hi with hi | hi
      · exact lt_trans (hbd i hi) (lt_add_one _)
      · rw [List.mem_singleton] at hi
        subst hi
        exact lt_add_one _
  | update did u => exact hop.elim
  | delete did => exact hop.elim

/-- Create/ingest sequences preserve the id invariant. -/
theorem run_id_inv (ops : List StoreOp) (st : DetectionsState)
    (hops : ∀ op ∈ ops, CreateIngestOk op) (h : IdInvariant st) :
    IdInvariant (st.run ops) := by
  induction ops generalizing st with
  | nil => exact h
  | cons op rest ih =>
    exact ih (st.applyOp op) (fun o ho => hops o (List.mem_cons_of_mem op ho))
      (applyOp_id_inv st op (hops op (List.mem_cons_self op rest)) h)

/-- C7 (counterexample): ingesting a batch whose raw records carry the
same server id leaves two live detections sharing that id, so
uniqueness does not hold for arbitrary create/ingest sequences. -/
theorem id_uniqueness_cex :
    ¬ (liveIds ((DetectionsState.init 1000).run
        [StoreOp.ingest (some [dupRawA, dupRawB])]).detections).Nodup := by
  with_unfolding_all decide

/-- C7 (amended): for every sequence of create and ingest calls in
which each ingested batch carries pairwise-distinct present ids, no two
live detections share an id, and every live id stays below the next-id
counter, so a later create never reuses a live id. (Ingestion replaces
the whole list and assigns no ids, so an id may reappear on a different
record only through re-ingestion of server data.) -/
theorem id_uniqueness_amended (start : ℤ) (ops : List StoreOp)
    (h : ∀ op ∈ ops, CreateIngestOk op) :
    (liveIds ((DetectionsState.init start).run ops).detections).Nodup ∧
    ∀ i ∈ liveIds ((DetectionsState.init start).run ops).detections,
      i < ((DetectionsState.init start).run ops).manager.nextId :=
  run_id_inv ops (DetectionsState.init start) h
    ⟨by simp [DetectionsState.init, liveIds],
     by intro i hi; exact absurd hi (by simp [DetectionsState.init, liveIds])⟩

set_option maxRecDepth 8000 in
/-- C7 (witness): ingesting the two id-less raw records and then
creating one detection yields pairwise-distinct live ids. -/
theorem id_uniqueness_amended_witness :
    (liveIds ((DetectionsState.init 1000).run
        [StoreOp.ingest (some [rawCat, rawDog]),
         StoreOp.create floorBox 0 "object" (1/2) false]).detections).Nodup :=
  (id_uniqueness_amended 1000
    [StoreOp.ingest (some [rawCat, rawDog]),
     StoreOp.create floorBox 0 "object" (1/2) false]
    (by with_unfolding_all decide)).1

/-- Plus-sign variant of the reconstruction error bound. -/
theorem recon_err_add (a b D : ℚ) (hD : 0 < D)
    (ha : |a| ≤ 1/2000000) (hb : |b| ≤ 1/2000000) :
    |a * D + b * D / 2| ≤ D * (1/100000) := by
  have h := recon_err a (-b) D hD ha (by rwa [abs_neg])
  have e : a * D - -b * D / 2 = a * D + b * D / 2 := by ring
  rwa [e] at h

set_option maxRecDepth 8000 in
/-- C1 (counterexample): for the corner detection with `x1 = 0` on a
600 by 600 image, the round-trip returns `x1 = -3/10000`; a 1e-5
RELATIVE tolerance — measured against the original value or against
the larger of the two values — is violated, because the reference
coordinate is zero while the six-decimal serialization still shifts
it. -/
theorem roundTrip_relTol_cex :
    YOLOFormatter.convertToYOLOLine cornerDet 600 600 = Except.ok cornerLine ∧
    (YOLOFormatter.convertFromYOLOFormat cornerLine 600 600).bbox.x1 = -3/10000 ∧
    ¬ (|(YOLOFormatter.convertFromYOLOFormat cornerLine 600 600).bbox.x1 - 0| ≤
        (1/100000) * |(0 : ℚ)|) ∧
    ¬ (|(YOLOFormatter.convertFromYOLOFormat cornerLine 600 600).bbox.x1 - 0| ≤
        (1/100000) *
          max |(YOLOFormatter.convertFromYOLOFormat cornerLine 600 600).bbox.x1|
            |(0 : ℚ)|) := by
  refine ⟨by with_unfolding_all rfl, by with_unfolding_all rfl, ?_, ?_⟩
  · with_unfolding_all decide
  · with_unfolding_all decide

/-- C1 (amended): for every detection whose bbox satisfies the
invariant and lies inside the positive image dimensions, decoding the
encoded line reproduces each coordinate within an ABSOLUTE tolerance of
1e-5 times the corresponding image dimension (the bound forced by the
six-decimal serialization; a relative tolerance fails at zero
coordinates). -/
theorem roundTrip_sixDecimal_bound (d : Detection) (b : Bbox) (W H : ℚ)
    (hb : d.bbox = some b) (hW : 0 < W) (hH : 0 < H)
    (hx0 : 0 ≤ b.x1) (hx : b.x1 ≤ b.x2) (hxW : b.x2 ≤ W)
    (hy0 : 0 ≤ b.y1) (hy : b.y1 ≤ b.y2) (hyH : b.y2 ≤ H) :
    ∃ line, YOLOFormatter.convertToYOLOLine d W H = Except.ok line ∧
      YOLOFormatter.convertToYOLOFormat d W H = Except.ok line.render ∧
      |(YOLOFormatter.convertFromYOLOFormat line W H).bbox.x1 - b.x1| ≤ W * (1/100000) ∧
      |(YOLOFormatter.convertFromYOLOFormat line W H).bbox.x2 - b.x2| ≤ W * (1/100000) ∧
      |(YOLOFormatter.convertFromYOLOFormat line W H).bbox.y1 - b.y1| ≤ H * (1/100000) ∧
      |(YOLOFormatter.convertFromYOLOFormat line W H).bbox.y2 - b.y2| ≤ H * (1/100000) := by
  have hcx0 : 0 ≤ ((b.x1 + b.x2) / 2) / W := div_nonneg (by linarith) hW.le
  have hcx1 : ((b.x1 + b.x2) / 2) / W ≤ 1 := by
    rw [div_le_one hW]
    linarith
  have hwid0 : 0 ≤ (b.x2 - b.x1) / W := div_nonneg (by linarith) hW.le
  have hwid1 : (b.x2 - b.x1) / W ≤ 1 := by
    rw [div_le_one hW]
    linarith
  have hcy0 : 0 ≤ ((b.y1 + b.y2) / 2) / H := div_nonneg (by linarith) hH.le
  have hcy1 : ((b.y1 + b.y2) / 2) / H ≤ 1 := by
    rw [div_le_one hH]
    linarith
  have hhei0 : 0 ≤ (b.y2 - b.y1) / H := div_nonneg (by linarith) hH.le
  have hhei1 : (b.y2 - b.y1) / H ≤ 1 := by
    rw [div_le_one hH]
    linarith
  have hguard : ¬ (W = 0 ∨ H = 0) := by
    rintro (h0 | h0)
    · exact hW.ne' h0
    · exact hH.ne' h0
  have hline : YOLOFormatter.convertToYOLOLine d W H = Except.ok
      { class_id := d.class_id
        center_x := round6 (((b.x1 + b.x2) / 2) / W)
        center_y := round6 (((b.y1 + b.y2) / 2) / H)
        width := round6 ((b.x2 - b.x1) / W)
        height := round6 ((b.y2 - b.y1) / H) } := by
    simp only [YOLOFormatter.convertToYOLOLine, hb]
    rw [if_neg hguard, min_eq_left hx, max_eq_right hx, min_eq_left hy,
      max_eq_right hy, clamp01_eq _ hcx0 hcx1, clamp01_eq _ hcy0 hcy1,
      clamp01_eq _ hwid0 hwid1, clamp01_eq _ hhei0 hhei1]
  refine ⟨_, hline, ?_, ?_, ?_, ?_, ?_⟩
  · rw [YOLOFormatter.convertToYOLOFormat, hline]
    rfl
  · show |round6 (((b.x1 + b.x2) / 2) / W) * W -
        round6 ((b.x2 - b.x1) / W) * W / 2 - b.x1| ≤ W * (1/100000)
    have hval : ((b.x1 + b.x2) / 2) / W * W - (b.x2 - b.x1) / W * W / 2 = b.x1 := by
      field_simp
      ring
    have hbound : |round6 (((b.x1 + b.x2) / 2) / W) * W -
        round6 ((b.x2 - b.x1) / W) * W / 2 -
        (((b.x1 + b.x2) / 2) / W * W - (b.x2 - b.x1) / W * W / 2)| ≤ W * (1/100000) := by
      have heq : round6 (((b.x1 + b.x2) / 2) / W) * W -
          round6 ((b.x2 - b.x1) / W) * W / 2 -
          (((b.x1 + b.x2) / 2) / W * W - (b.x2 - b.x1) / W * W / 2) =
          (round6 (((b.x1 + b.x2) / 2) / W) - ((b.x1 + b.x2) / 2) / W) * W -
          (round6 ((b.x2 - b.x1) / W) - (b.x2 - b.x1) / W) * W / 2 := by
        ring
      rw [heq]
      exact recon_err _ _ W hW (round6_err _) (round6_err _)
    rwa [hval] at hbound
  · show |round6 (((b.x1 + b.x2) / 2) / W) * W +
        round6 ((b.x2 - b.x1) / W) * W / 2 - b.x2| ≤ W * (1/100000)
    have hval : ((b.x1 + b.x2) / 2) / W * W + (b.x2 - b.x1) / W * W / 2 = b.x2 := by
      field_simp
      ring
    have hbound : |round6 (((b.x1 + b.x2) / 2) / W) * W +
        round6 ((b.x2 - b.x1) / W) * W / 2 -
        (((b.x1 + b.x2) / 2) / W * W + (b.x2 - b.x1) / W * W / 2)| ≤ W * (1/100000) := by
      have heq : round6 (((b.x1 + b.x2) / 2) / W) * W +
          round6 ((b.x2 - b.x1) / W) * W / 2 -
          (((b.x1 + b.x2) / 2) / W * W + (b.x2 - b.x1) / W * W / 2) =
          (round6 (((b.x1 + b.x2) / 2) / W) - ((b.x1 + b.x2) / 2) / W) * W +
          (round6 ((b.x2 - b.x1) / W) - (b.x2 - b.x1) / W) * W / 2 := by
        ring
      rw [heq]
      exact recon_err_add _ _ W hW (round6_err _) (round6_err _)
    rwa [hval] at hbound
  · show |round6 (((b.y1 + b.y2) / 2) / H) * H -
        round6 ((b.y2 - b.y1) / H) * H / 2 - b.y1| ≤ H * (1/100000)
    have hval : ((b.y1 + b.y2) / 2) / H * H - (b.y2 - b.y1) / H * H / 2 = b.y1 := by
      field_simp
      ring
    have hbound : |round6 (((b.y1 + b.y2) / 2) / H) * H -
        round6 ((b.y2 - b.y1) / H) * H / 2 -
        (((b.y1 + b.y2) / 2) / H * H - (b.y2 - b.y1) / H * H / 2)| ≤ H * (1/100000) := by
      have heq : round6 (((b.y1 + b.y2) / 2) / H) * H -
          round6 ((b.y2 - b.y1) / H) * H / 2 -
          (((b.y1 + b.y2) / 2) / H * H - (b.y2 - b.y1) / H * H / 2) =
          (round6 (((b.y1 + b.y2) / 2) / H) - ((b.y1 + b.y2) / 2) / H) * H -
          (round6 ((b.y2 - b.y1) / H) - (b.y2 - b.y1) / H) * H / 2 := by
        ring
      rw [heq]
      exact recon_err _ _ H hH (round6_err _) (round6_err _)
    rwa [hval] at hbound
  · show |round6 (((b.y1 + b.y2) / 2) / H) * H +
        round6 ((b.y2 - b.y1) / H) * H / 2 - b.y2| ≤ H * (1/100000)
    have hval : ((b.y1 + b.y2) / 2) / H * H + (b.y2 - b.y1) / H * H / 2 = b.y2 := by
      field_simp
      ring
    have hbound : |round6 (((b.y1 + b.y2) / 2) / H) * H +
        round6 ((b.y2 - b.y1) / H) * H / 2 -
        (((b.y1 + b.y2) / 2) / H * H + (b.y2 - b.y1) / H * H / 2)| ≤ H * (1/100000) := by
      have heq : round6 (((b.y1 + b.y2) / 2) / H) * H +
          round6 ((b.y2 - b.y1) / H) * H / 2 -
          (((b.y1 + b.y2) / 2) / H * H + (b.y2 - b.y1) / H * H / 2) =
          (round6 (((b.y1 + b.y2) / 2) / H) - ((b.y1 + b.y2) / 2) / H) * H +
          (round6 ((b.y2 - b.y1) / H) - (b.y2 - b.y1) / H) * H / 2 := by
        ring
      rw [heq]
      exact recon_err_add _ _ H hH (round6_err _) (round6_err _)
    rwa [hval] at hbound

/-- C1 (witness): the in-bounds export detection on an 800 by 600
image satisfies every hypothesis, and the bound holds for it. -/
theorem roundTrip_sixDecimal_bound_witness :
    ∃ line, YOLOFormatter.convertToYOLOLine exportDetA 800 600 = Except.ok line ∧
      YOLOFormatter.convertToYOLOFormat exportDetA 800 600 = Except.ok line.render ∧
      |(YOLOFormatter.convertFromYOLOFormat line 800 600).bbox.x1 - exportBoxA.x1| ≤
        800 * (1/100000) ∧
      |(YOLOFormatter.convertFromYOLOFormat line 800 600).bbox.x2 - exportBoxA.x2| ≤
        800 * (1/100000) ∧
      |(YOLOFormatter.convertFromYOLOFormat line 800 600).bbox.y1 - exportBoxA.y1| ≤
        600 * (1/100000) ∧
      |(YOLOFormatter.convertFromYOLOFormat line 800 600).bbox.y2 - exportBoxA.y2| ≤
        600 * (1/100000) :=
  roundTrip_sixDecimal_bound exportDetA exportBoxA 800 600 rfl
    (by norm_num) (by norm_num)
    (by norm_num [exportBoxA]) (by norm_num [exportBoxA]) (by norm_num [exportBoxA])
    (by norm_num [exportBoxA]) (by norm_num [exportBoxA]) (by norm_num [exportBoxA])

end DetectionEngine
